import Mathlib

/-!
Shallow embedding of the Justdial lead-extraction pipeline
(`scrape_justdial` in `app.py`) and proofs of its specified properties.

HTML is modelled at the granularity the code queries it: a listing
fragment is the ordered list of its descendant tag nodes (tag name,
class list, stripped-text payload, optional href); a page is the ordered
list of its candidate container elements.  Each BeautifulSoup query in
the source becomes a first-match search over those lists, and each
regular-expression step becomes an explicit character-level function.
-/

namespace Justdial

/-- One parsed markup tag inside a listing fragment: its tag name, its
class attribute split into individual classes, its text payload, and its
href attribute when present. -/
structure Node where
  tag : String
  classes : List String
  text : String
  href : Option String
deriving DecidableEq

/-- A listing fragment: the descendant nodes of one candidate business
entry, in document order. -/
abbrev Fragment := List Node

/-- One page-level element that the listing selectors inspect: tag name,
classes, and the fragment of descendant nodes it contains. -/
structure Element where
  tag : String
  classes : List String
  nodes : Fragment
deriving DecidableEq

/-- Substring occurrence on character lists (the `in` operator of Python
on strings): `hasSub pat l` holds when `pat` occurs contiguously in `l`. -/
def hasSub (pat : List Char) : List Char → Bool
  | [] => pat.isEmpty
  | c :: rest => pat.isPrefixOf (c :: rest) || hasSub pat rest

/-- `strContains s pat` models Python's `pat in s` on strings. -/
def strContains (s pat : String) : Bool :=
  hasSub pat.data s.data

/-- Python's `str.strip()` on a character list: drop whitespace from both
ends. -/
def pyStrip (l : List Char) : List Char :=
  ((l.dropWhile Char.isWhitespace).reverse.dropWhile Char.isWhitespace).reverse

/-- `get_text(strip=True)` on a node's text payload, and `str.strip()` on
strings. -/
def pyStripStr (s : String) : String :=
  String.mk (pyStrip s.data)

/-- The character class of the phone pattern `[\d\s\-\+\(\)]`: digits,
whitespace, hyphen, plus, parentheses. -/
def isPhoneChar (c : Char) : Bool :=
  c.isDigit || c.isWhitespace || c == '-' || c == '+' || c == '(' || c == ')'

/-- Fuelled engine for `re.search(r'[\d\s\-\+\(\)]{10,}', text)`: find the
leftmost position where at least 10 consecutive phone-class characters
start, and return the greedy (maximal) run from there. -/
def phoneSearchAux : Nat → List Char → Option (List Char)
  | 0, _ => none
  | _, [] => none
  | fuel + 1, c :: rest =>
    if isPhoneChar c then
      let run := c :: rest.takeWhile isPhoneChar
      if 10 ≤ run.length then some run
      else phoneSearchAux fuel (rest.dropWhile isPhoneChar)
    else phoneSearchAux fuel rest

/-- `re.search(r'[\d\s\-\+\(\)]{10,}', text)`: the fuel `l.length` always
suffices since every step consumes at least one character. -/
def phoneSearch (l : List Char) : Option (List Char) :=
  phoneSearchAux l.length l

/-- Fuelled engine for `re.sub(r'\s+', ' ', s)`: collapse every maximal
whitespace run to a single space. -/
def collapseWsAux : Nat → List Char → List Char
  | 0, _ => []
  | _, [] => []
  | fuel + 1, c :: rest =>
    if c.isWhitespace then ' ' :: collapseWsAux fuel (rest.dropWhile Char.isWhitespace)
    else c :: collapseWsAux fuel rest

/-- `re.sub(r'\s+', ' ', s)` on a character list. -/
def collapseWs (l : List Char) : List Char :=
  collapseWsAux l.length l

/-- `listing.find(tag, class_=c)`: first descendant node with the given
tag name carrying class `c`. -/
def findTagClass (frag : Fragment) (t c : String) : Option Node :=
  frag.find? (fun n => n.tag == t && n.classes.contains c)

/-- `listing.find(tag)`: first descendant node with the given tag name. -/
def findTag (frag : Fragment) (t : String) : Option Node :=
  frag.find? (fun n => n.tag == t)

/-- Business-name resolution of `scrape_justdial`: try `span.jcn` then
`a.jcn`; only when the name is still the sentinel "N/A" try `h2` then
`h3`. -/
def resolveName (frag : Fragment) : String :=
  let name :=
    match (findTagClass frag "span" "jcn").orElse (fun _ => findTagClass frag "a" "jcn") with
    | some t => pyStripStr t.text
    | none => "N/A"
  if name = "N/A" then
    match (findTag frag "h2").orElse (fun _ => findTag frag "h3") with
    | some t => pyStripStr t.text
    | none => name
  else name

/-- Phone resolution: try `p.contact-info` then `span.mobilesv`; on a hit,
search the stripped text for a run of at least 10 phone-class characters
and strip whitespace from the match; else the sentinel. -/
def resolvePhone (frag : Fragment) : String :=
  match (findTagClass frag "p" "contact-info").orElse (fun _ => findTagClass frag "span" "mobilesv") with
  | some t =>
    match phoneSearch (pyStripStr t.text).data with
    | some run => String.mk (pyStrip run)
    | none => "N/A"
  | none => "N/A"

/-- Address resolution: try `p.address` then `span.mrehover`; on a hit,
collapse whitespace runs to single spaces; else the sentinel. -/
def resolveAddress (frag : Fragment) : String :=
  match (findTagClass frag "p" "address").orElse (fun _ => findTagClass frag "span" "mrehover") with
  | some t => String.mk (collapseWs (pyStripStr t.text).data)
  | none => "N/A"

/-- The predicate of `listing.find('a', href=re.compile(r'http'))`: an
anchor whose href attribute exists and contains "http". -/
def anchorHrefHttp (n : Node) : Bool :=
  n.tag == "a" &&
    (match n.href with
     | some h => strContains h "http"
     | none => false)

/-- Website resolution: take the first anchor whose href contains "http";
keep its href only when it is non-empty and does not contain "justdial";
else the sentinel.  Later anchors are never examined. -/
def resolveWebsite (frag : Fragment) : String :=
  match frag.find? anchorHrefHttp with
  | some t =>
    match t.href with
    | some h => if h ≠ "" ∧ strContains h "justdial" = false then h else "N/A"
    | none => "N/A"
  | none => "N/A"

/-- The email slug: lower-case the name, delete spaces, delete hyphens,
keep the first 15 characters (`name.lower().replace(' ', '').replace('-', '')[:15]`). -/
def emailSlug (name : String) : String :=
  String.mk ((((name.data.map Char.toLower).filter (fun c => !(c == ' '))).filter (fun c => !(c == '-'))).take 15)

/-- Email synthesis: `info@<slug>.com` when the name is resolved, else the
sentinel. -/
def resolveEmail (name : String) : String :=
  if name ≠ "N/A" then "info@" ++ emailSlug name ++ ".com" else "N/A"

/-- Social-link labelling: facebook links are labelled before instagram
links are considered, mirroring the `if`/`elif` chain. -/
def socialLabel (h : String) : Option String :=
  if strContains h "facebook.com" then some ("Facebook: " ++ h)
  else if strContains h "instagram.com" then some ("Instagram: " ++ h)
  else none

/-- Social-profile resolution: collect labels of anchors with an href, in
document order; keep at most two, joined by " | "; else the sentinel. -/
def resolveSocial (frag : Fragment) : String :=
  let socialLinks := frag.filterMap (fun n =>
    if n.tag == "a" then
      match n.href with
      | some h => socialLabel h
      | none => none
    else none)
  if socialLinks.isEmpty then "N/A" else String.intercalate " | " (socialLinks.take 2)

/-- The output unit: one extracted business record. -/
structure LeadRecord where
  businessName : String
  emailId : String
  phoneNumber : String
  address : String
  category : String
  websiteUrl : String
  socialProfiles : String
deriving DecidableEq

/-- Per-fragment processing: resolve every field from the fragment (the
resolved name is the code's local variable `name`), then accept the
fragment only when the name is non-sentinel and longer than 2 characters. -/
def processFragment (keyword : String) (frag : Fragment) : Option LeadRecord :=
  if resolveName frag ≠ "N/A" ∧ 2 < (resolveName frag).length then
    some ⟨resolveName frag, resolveEmail (resolveName frag), resolvePhone frag,
          resolveAddress frag, keyword, resolveWebsite frag, resolveSocial frag⟩
  else none

/-- The accumulation loop over the sliced listings: append accepted
records, count them, and break once the count reaches `maxResults`. -/
def extractLoop (keyword : String) : List Fragment → Nat → Nat → List LeadRecord
  | [], _, _ => []
  | frag :: rest, count, maxResults =>
    match processFragment keyword frag with
    | some r =>
      if maxResults ≤ count + 1 then [r]
      else r :: extractLoop keyword rest (count + 1) maxResults
    | none => extractLoop keyword rest count maxResults

/-- `soup.find_all('li', class_='cntanr')`: the primary listing selector. -/
def primaryListings (page : List Element) : List Fragment :=
  (page.filter (fun e => e.tag == "li" && e.classes.contains "cntanr")).map Element.nodes

/-- `soup.find_all('div', class_='store-details')`: the first fallback
selector. -/
def storeDetailListings (page : List Element) : List Fragment :=
  (page.filter (fun e => e.tag == "div" && e.classes.contains "store-details")).map Element.nodes

/-- One class matches the fallback regex `.*listing.*|.*store.*|.*business.*`. -/
def patternClass (c : String) : Bool :=
  strContains c "listing" || strContains c "store" || strContains c "business"

/-- `soup.find_all('div', {'class': re.compile(...)})`: the second
fallback selector. -/
def patternListings (page : List Element) : List Fragment :=
  (page.filter (fun e => e.tag == "div" && e.classes.any patternClass)).map Element.nodes

/-- The selector cascade: primary, else store-details, else the loose
class pattern. -/
def selectListings (page : List Element) : List Fragment :=
  let listings := primaryListings page
  let listings := if listings.isEmpty then storeDetailListings page else listings
  let listings := if listings.isEmpty then patternListings page else listings
  listings

/-- Extraction over a fetched page: run the cascade, slice to the first
`maxResults` fragments, then run the accumulation loop. -/
def extractFromPage (keyword : String) (page : List Element) (maxResults : Nat) : List LeadRecord :=
  extractLoop keyword ((selectListings page).take maxResults) 0 maxResults

/-- What `requests.get` produced: a transport-level exception, or a
response with a status code and a (parsed) page body. -/
inductive FetchOutcome where
  | transportError (msg : String)
  | response (status : Nat) (page : List Element)
deriving DecidableEq

/-- The body of the outer `try` block: a transport error propagates as an
exception; a non-200 status returns the empty result early; otherwise the
page is extracted. -/
def scrapeBody (keyword : String) (fetch : FetchOutcome) (maxResults : Nat) :
    Except String (List LeadRecord) :=
  match fetch with
  | .transportError msg => .error msg
  | .response status page =>
    if status ≠ 200 then .ok []
    else .ok (extractFromPage keyword page maxResults)

/-- `scrape_justdial`: the outer `try`/`except` absorbs any exception into
an empty result. -/
def scrape_justdial (keyword : String) (fetch : FetchOutcome) (maxResults : Nat) :
    List LeadRecord :=
  match scrapeBody keyword fetch maxResults with
  | .ok records => records
  | .error _ => []

/-! ### Definitions taken from the claims, for comparison with the code -/

/-- `strStarts s pat` holds when `s` starts with `pat` (used to model the
claim's "absolute HTTP(S) URL"). -/
def strStarts (s pat : String) : Bool :=
  pat.data.isPrefixOf s.data

/-- The number of acceptable fragments in a fragment list, as claim C4
counts them: fragments that `processFragment` accepts. -/
def acceptableCount (keyword : String) (frags : List Fragment) : Nat :=
  (frags.filterMap (processFragment keyword)).length

/-- Modelled from the claim C5 wording: the target of the first link whose
target is an absolute HTTP(S) URL and does not contain "justdial"; the
sentinel when no such link exists. -/
def claimWebsite (frag : Fragment) : String :=
  match frag.find? (fun n => n.tag == "a" &&
      (match n.href with
       | some h => strStarts h "http" && !(strContains h "justdial")
       | none => false)) with
  | some t => t.href.getD "N/A"
  | none => "N/A"

/-- Modelled from the amended claim C5: only the first link whose target
contains "http" is consulted; its target is kept unless it contains
"justdial", and later links are never examined. -/
def claimWebsiteAmended (frag : Fragment) : String :=
  match frag.find? anchorHrefHttp with
  | some t =>
    match t.href with
    | some h => if strContains h "justdial" then "N/A" else h
    | none => "N/A"
  | none => "N/A"

/-! ### Concrete page fixtures -/

/-- A well-formed listing fragment: resolvable name, clean phone, address,
external website link and one facebook link. -/
def fragGood : Fragment :=
  [⟨"span", ["jcn"], "Acme Fitness Studio", none⟩,
   ⟨"p", ["contact-info"], "9876543210", none⟩,
   ⟨"p", ["address"], "12 Main Road Kochi", none⟩,
   ⟨"a", [], "", some "https://acmefitness.example.com"⟩,
   ⟨"a", [], "", some "https://facebook.com/acme"⟩]

/-- A page with one well-formed primary listing. -/
def pageGood : List Element :=
  [⟨"li", ["cntanr"], fragGood⟩]

/-- The record extracted from `fragGood` with keyword "gym". -/
def recGood : LeadRecord :=
  ⟨"Acme Fitness Studio", "info@acmefitnessstud.com", "9876543210",
   "12 Main Road Kochi", "gym", "https://acmefitness.example.com",
   "Facebook: https://facebook.com/acme"⟩

/-- A page whose first primary fragment has no resolvable name and whose
second is well-formed: with `maxResults = 1` the slice keeps only the
unusable fragment. -/
def pageSkipFirst : List Element :=
  [⟨"li", ["cntanr"], []⟩,
   ⟨"li", ["cntanr"], [⟨"span", ["jcn"], "Beta Traders", none⟩]⟩]

/-- A fragment whose first "http" anchor targets the host domain while its
second anchor is external. -/
def fragHostFirst : Fragment :=
  [⟨"a", [], "", some "https://www.justdial.com/store"⟩,
   ⟨"a", [], "", some "https://example.com"⟩]

/-- A fragment with a fine name whose phone text strips to a value that is
shorter than 10 characters and contains a tab. -/
def fragShortPhone : Fragment :=
  [⟨"span", ["jcn"], "Acme Gym", none⟩,
   ⟨"p", ["contact-info"], "a1\t234567   b", none⟩]

/-- The page holding `fragShortPhone` as its only primary listing. -/
def pageShortPhone : List Element :=
  [⟨"li", ["cntanr"], fragShortPhone⟩]

/-- The record extracted from `fragShortPhone` with keyword "gym". -/
def recShortPhone : LeadRecord :=
  ⟨"Acme Gym", "info@acmegym.com", "1\t234567", "N/A", "gym", "N/A", "N/A"⟩

/-- A page where the primary selector and the store-details fallback match
different elements. -/
def pageBothSelectors : List Element :=
  [⟨"li", ["cntanr"], [⟨"span", ["jcn"], "Gamma Stores", none⟩]⟩,
   ⟨"div", ["store-details"], [⟨"span", ["jcn"], "Delta Mart", none⟩]⟩]

/-- A `span.jcn` node whose stripped text "ab" is too short to accept. -/
def nodeShortName : Node :=
  ⟨"span", ["jcn"], "ab", none⟩

/-- A fragment whose primary name marker resolves to the short text "ab"
while an `h2` in the same fragment holds a valid name. -/
def fragShortName : Fragment :=
  [nodeShortName,
   ⟨"h2", [], "Valid Name Inc", none⟩]

/-! ### Structural lemmas about the extraction loop -/

/-- As long as the fragment list fits inside the remaining budget, the
accumulation loop is a plain `filterMap`: the early break never removes
anything. -/
theorem extractLoop_eq_filterMap (keyword : String) :
    ∀ (l : List Fragment) (count maxResults : Nat),
      l.length + count ≤ maxResults →
      extractLoop keyword l count maxResults = l.filterMap (processFragment keyword) := by
  intro l
  induction l with
  | nil => intro count maxResults _; rfl
  | cons frag rest ih =>
    intro count maxResults h
    simp only [List.length_cons] at h
    cases hpf : processFragment keyword frag with
    | none =>
      simp only [extractLoop, hpf, List.filterMap_cons_none hpf]
      exact ih count maxResults (by omega)
    | some r =>
      simp only [extractLoop, hpf, List.filterMap_cons_some hpf]
      by_cases hc : maxResults ≤ count + 1
      · have hrest : rest = [] := by
          have : rest.length = 0 := by omega
          exact List.eq_nil_of_length_eq_zero this
        subst hrest
        simp [hc]
      · rw [if_neg hc, ih (count + 1) maxResults (by omega)]

/-- Every record of a result set comes from some fragment that
`processFragment` accepted. -/
theorem mem_scrape {r : LeadRecord} {keyword : String} {fetch : FetchOutcome}
    {maxResults : Nat} (h : r ∈ scrape_justdial keyword fetch maxResults) :
    ∃ frag, processFragment keyword frag = some r := by
  cases fetch with
  | transportError msg => simp [scrape_justdial, scrapeBody] at h
  | response status page =>
    by_cases hs : status = 200
    · subst hs
      simp only [scrape_justdial, scrapeBody, ne_eq, reduceIte, extractFromPage] at h
      rw [extractLoop_eq_filterMap] at h
      · obtain ⟨frag, _, hpf⟩ := List.mem_filterMap.mp h
        exact ⟨frag, hpf⟩
      · have := List.length_take_le maxResults (selectListings page)
        omega
    · simp [scrape_justdial, scrapeBody, hs] at h

/-- Characterisation of an accepted fragment: the acceptance condition
held and every field of the record is the corresponding resolver. -/
theorem processFragment_some {keyword : String} {frag : Fragment} {r : LeadRecord}
    (h : processFragment keyword frag = some r) :
    resolveName frag ≠ "N/A" ∧ 2 < (resolveName frag).length ∧
      r = ⟨resolveName frag, resolveEmail (resolveName frag), resolvePhone frag,
           resolveAddress frag, keyword, resolveWebsite frag, resolveSocial frag⟩ := by
  unfold processFragment at h
  split at h
  next hcond =>
    injection h with h
    exact ⟨hcond.1, hcond.2, h.symm⟩
  next => exact Option.noConfusion h

/-- Every successful phone-pattern match consists of phone-class
characters and has length at least 10. -/
theorem phoneSearchAux_some :
    ∀ (fuel : Nat) (l run : List Char), phoneSearchAux fuel l = some run →
      (∀ c ∈ run, isPhoneChar c = true) ∧ 10 ≤ run.length := by
  intro fuel
  induction fuel with
  | zero => intro l run h; simp [phoneSearchAux] at h
  | succ n ih =>
    intro l run h
    cases l with
    | nil => simp [phoneSearchAux] at h
    | cons c rest =>
      simp only [phoneSearchAux] at h
      split at h
      next hc =>
        split at h
        next hlen =>
          injection h with h
          subst h
          refine ⟨fun x hx => ?_, hlen⟩
          rcases List.mem_cons.mp hx with hx | hx
          · exact hx ▸ hc
          · exact List.mem_takeWhile_imp hx
        next => exact ih _ _ h
      next => exact ih _ _ h

/-- Stripping whitespace only removes characters. -/
theorem mem_pyStrip {c : Char} {l : List Char} (h : c ∈ pyStrip l) : c ∈ l := by
  unfold pyStrip at h
  rw [List.mem_reverse] at h
  have h1 := (List.dropWhile_sublist Char.isWhitespace).subset h
  rw [List.mem_reverse] at h1
  exact (List.dropWhile_sublist Char.isWhitespace).subset h1

/-- A resolved phone number is the whitespace-strip of a matched run of at
least 10 phone-class characters. -/
theorem resolvePhone_resolved {frag : Fragment} (h : resolvePhone frag ≠ "N/A") :
    ∃ run : List Char, (∀ c ∈ run, isPhoneChar c = true) ∧ 10 ≤ run.length ∧
      resolvePhone frag = String.mk (pyStrip run) := by
  cases hfind : (findTagClass frag "p" "contact-info").orElse
      (fun _ => findTagClass frag "span" "mobilesv") with
  | none =>
    have he : resolvePhone frag = "N/A" := by
      unfold resolvePhone; simp only [hfind]
    exact absurd he h
  | some t =>
    cases hps : phoneSearch (pyStripStr t.text).data with
    | none =>
      have he : resolvePhone frag = "N/A" := by
        unfold resolvePhone; simp only [hfind, hps]
      exact absurd he h
    | some run =>
      obtain ⟨hall, hlen⟩ := phoneSearchAux_some _ _ _ hps
      refine ⟨run, hall, hlen, ?_⟩
      unfold resolvePhone
      simp only [hfind, hps]

/-! ### The claimed properties -/

/-- Claim C1: for every fetch outcome, keyword, and maxResults, the result
set returned by `scrape_justdial` contains at most `maxResults` records. -/
theorem C1_resultSet_le_maxResults (keyword : String) (fetch : FetchOutcome)
    (maxResults : Nat) :
    (scrape_justdial keyword fetch maxResults).length ≤ maxResults := by
  cases fetch with
  | transportError msg => simp [scrape_justdial, scrapeBody]
  | response status page =>
    by_cases hs : status = 200
    · subst hs
      simp only [scrape_justdial, scrapeBody, ne_eq, reduceIte, extractFromPage]
      rw [extractLoop_eq_filterMap]
      · calc (((selectListings page).take maxResults).filterMap
              (processFragment keyword)).length
            ≤ ((selectListings page).take maxResults).length :=
              List.length_filterMap_le _ _
          _ ≤ maxResults := List.length_take_le _ _
      · have := List.length_take_le maxResults (selectListings page)
        omega
    · simp [scrape_justdial, scrapeBody, hs]

/-- Claim C2: every record in any result set has a business name that is
not the sentinel "N/A" and is strictly longer than 2 characters. -/
theorem C2_name_invariant {keyword : String} {fetch : FetchOutcome} {maxResults : Nat}
    {r : LeadRecord} (h : r ∈ scrape_justdial keyword fetch maxResults) :
    r.businessName ≠ "N/A" ∧ 2 < r.businessName.length := by
  obtain ⟨frag, hpf⟩ := mem_scrape h
  obtain ⟨hne, hlen, hr⟩ := processFragment_some hpf
  subst hr
  exact ⟨hne, hlen⟩

/-- Witness for C2: a concrete extraction that produces a record. -/
theorem C2_name_invariant_witness :
    recGood.businessName ≠ "N/A" ∧ 2 < recGood.businessName.length :=
  @C2_name_invariant "gym" (.response 200 pageGood) 5 recGood (by decide)

/-- Claim C3: the email of every record equals "info@" followed by the
first 15 characters of the lower-cased business name with spaces and
hyphens removed, followed by ".com"; in particular it is never the
sentinel. -/
theorem C3_email_derivation {keyword : String} {fetch : FetchOutcome} {maxResults : Nat}
    {r : LeadRecord} (h : r ∈ scrape_justdial keyword fetch maxResults) :
    r.emailId = "info@" ++ emailSlug r.businessName ++ ".com" ∧ r.emailId ≠ "N/A" := by
  obtain ⟨frag, hpf⟩ := mem_scrape h
  obtain ⟨hne, hlen, hr⟩ := processFragment_some hpf
  subst hr
  constructor
  · show resolveEmail (resolveName frag)
        = "info@" ++ emailSlug (resolveName frag) ++ ".com"
    unfold resolveEmail
    rw [if_pos hne]
  · show resolveEmail (resolveName frag) ≠ "N/A"
    unfold resolveEmail
    rw [if_pos hne]
    intro hEq
    have hlen2 := congrArg String.length hEq
    rw [String.length_append, String.length_append] at hlen2
    have h1 : ("info@" : String).length = 5 := rfl
    have h2 : (".com" : String).length = 4 := rfl
    have h3 : ("N/A" : String).length = 3 := rfl
    omega

/-- Witness for C3: the email of a concretely extracted record. -/
theorem C3_email_derivation_witness :
    recGood.emailId = "info@" ++ emailSlug recGood.businessName ++ ".com" ∧
      recGood.emailId ≠ "N/A" :=
  @C3_email_derivation "gym" (.response 200 pageGood) 5 recGood (by decide)

/-- Claim C4 is false as stated: on a page where a nameless fragment
precedes an acceptable one, `maxResults = 1` yields 0 records even though
the claimed value min(maxResults, acceptable fragments) is 1, because the
code slices the listing list to `maxResults` before filtering. -/
theorem C4_counterexample :
    ¬ ((scrape_justdial "gym" (.response 200 pageSkipFirst) 1).length =
        Nat.min 1 (acceptableCount "gym" (selectListings pageSkipFirst))) := by decide

/-- Claim C4 (amended): the number of accepted records equals the number
of acceptable fragments among the first `maxResults` fragments of the
page; fragments skipped inside that window do consume the budget. -/
theorem C4_amended_accepted_count (keyword : String) (page : List Element)
    (maxResults : Nat) :
    (scrape_justdial keyword (.response 200 page) maxResults).length =
      acceptableCount keyword ((selectListings page).take maxResults) := by
  simp only [scrape_justdial, scrapeBody, ne_eq, reduceIte, extractFromPage]
  rw [extractLoop_eq_filterMap]
  · rfl
  · have := List.length_take_le maxResults (selectListings page)
    omega

/-- Claim C5 is false as stated: on a fragment whose first "http" link
targets the host domain and whose second is external, the code yields the
sentinel instead of the second link, because only the first matching link
is ever examined. -/
theorem C5_counterexample :
    resolveWebsite fragHostFirst = "N/A" ∧
      claimWebsite fragHostFirst = "https://example.com" ∧
      resolveWebsite fragHostFirst ≠ claimWebsite fragHostFirst := by decide

/-- Claim C5 (amended): the website field is decided by the first link
whose target contains "http" alone — kept when it does not contain
"justdial", the sentinel otherwise; later links are never consulted. -/
theorem C5_amended_website (frag : Fragment) :
    resolveWebsite frag = claimWebsiteAmended frag := by
  cases hf : frag.find? anchorHrefHttp with
  | none => unfold resolveWebsite claimWebsiteAmended; simp only [hf]
  | some t =>
    have hp := List.find?_some hf
    unfold anchorHrefHttp at hp
    cases hh : t.href with
    | none =>
      rw [hh] at hp
      simp at hp
    | some hrefVal =>
      rw [hh] at hp
      rw [Bool.and_eq_true] at hp
      have hhttp : strContains hrefVal "http" = true := hp.2
      have hne : hrefVal ≠ "" := by
        intro he
        rw [he] at hhttp
        exact absurd hhttp (by decide)
      unfold resolveWebsite claimWebsiteAmended
      simp only [hf, hh]
      by_cases hj : strContains hrefVal "justdial" = true
      · simp [hj]
      · simp only [Bool.not_eq_true] at hj
        simp [hj, hne]

/-- Claim C6 is false as stated: a concrete page yields a record whose
phone number is resolved yet is shorter than 10 characters and contains a
tab, because the match may begin or end with whitespace that `strip`
removes and the pattern class admits all whitespace. -/
theorem C6_counterexample :
    scrape_justdial "gym" (.response 200 pageShortPhone) 5 = [recShortPhone] ∧
      recShortPhone.phoneNumber ≠ "N/A" ∧
      recShortPhone.phoneNumber.length < 10 ∧
      recShortPhone.phoneNumber.data.contains '\t' = true := by decide

/-- Claim C6 (amended): every character of a resolved phone number is a
digit, whitespace, plus, parenthesis or hyphen, and the number is the
whitespace-strip of a matched run of at least 10 such characters — so its
final length may be below 10 exactly when the run had leading or trailing
whitespace. -/
theorem C6_amended_phone {keyword : String} {fetch : FetchOutcome} {maxResults : Nat}
    {r : LeadRecord} (h : r ∈ scrape_justdial keyword fetch maxResults)
    (hp : r.phoneNumber ≠ "N/A") :
    (∀ c ∈ r.phoneNumber.data, isPhoneChar c = true) ∧
      ∃ run : List Char, (∀ c ∈ run, isPhoneChar c = true) ∧ 10 ≤ run.length ∧
        r.phoneNumber = String.mk (pyStrip run) := by
  obtain ⟨frag, hpf⟩ := mem_scrape h
  obtain ⟨hne, hlen, hr⟩ := processFragment_some hpf
  have hph : r.phoneNumber = resolvePhone frag := by rw [hr]
  rw [hph] at hp ⊢
  obtain ⟨run, hall, h10, heq⟩ := resolvePhone_resolved hp
  rw [heq]
  refine ⟨?_, run, hall, h10, rfl⟩
  intro c hc
  exact hall c (mem_pyStrip hc)

/-- Witness for the amended C6 at a concretely extracted record. -/
theorem C6_amended_phone_witness :
    (∀ c ∈ recGood.phoneNumber.data, isPhoneChar c = true) ∧
      ∃ run : List Char, (∀ c ∈ run, isPhoneChar c = true) ∧ 10 ≤ run.length ∧
        recGood.phoneNumber = String.mk (pyStrip run) :=
  @C6_amended_phone "gym" (.response 200 pageGood) 5 recGood (by decide) (by decide)

/-- Claim C7: the selector cascade short-circuits — when the primary
selector matches at least one element, the fragments processed are exactly
its matches and the fallbacks are never consulted. -/
theorem C7_cascade_shortcircuit (page : List Element)
    (h : primaryListings page ≠ []) :
    selectListings page = primaryListings page := by
  have h1 : (primaryListings page).isEmpty = false := by
    cases hp : primaryListings page with
    | nil => exact absurd hp h
    | cons a t => rfl
  simp [selectListings, h1]

/-- Witness for C7: a page where primary and fallback selectors match
different sets, and the primary wins. -/
theorem C7_cascade_shortcircuit_witness :
    primaryListings pageBothSelectors ≠ [] ∧
      storeDetailListings pageBothSelectors ≠ primaryListings pageBothSelectors ∧
      selectListings pageBothSelectors = primaryListings pageBothSelectors :=
  ⟨by decide, by decide, C7_cascade_shortcircuit pageBothSelectors (by decide)⟩

/-- Claim C8: the combined fetch-and-extract operation never propagates an
exception — for every input the caller receives the extracted list when
the body succeeds and the empty list when the body faulted. -/
theorem C8_no_exception_escape (keyword : String) (fetch : FetchOutcome)
    (maxResults : Nat) :
    (∃ records, scrapeBody keyword fetch maxResults = Except.ok records ∧
        scrape_justdial keyword fetch maxResults = records) ∨
      (∃ msg, scrapeBody keyword fetch maxResults = Except.error msg ∧
        scrape_justdial keyword fetch maxResults = []) := by
  cases hb : scrapeBody keyword fetch maxResults with
  | ok records => exact Or.inl ⟨records, rfl, by unfold scrape_justdial; rw [hb]⟩
  | error msg => exact Or.inr ⟨msg, rfl, by unfold scrape_justdial; rw [hb]⟩

/-- Claim C9: a fetch with any non-200 status yields the empty result set,
whatever the page body holds — no fragment is processed. -/
theorem C9_non200_empty (keyword : String) (maxResults status : Nat)
    (page : List Element) (h : status ≠ 200) :
    scrape_justdial keyword (.response status page) maxResults = [] := by
  simp only [scrape_justdial, scrapeBody]
  rw [if_pos h]

/-- Witness for C9: status 404 on a page that would otherwise produce a
record yields nothing. -/
theorem C9_non200_empty_witness :
    scrape_justdial "gym" (.response 404 pageGood) 5 = [] ∧
      scrape_justdial "gym" (.response 200 pageGood) 5 ≠ [] :=
  ⟨C9_non200_empty "gym" 5 404 pageGood (by decide), by decide⟩

/-- Claim C10: when a primary name marker matches with stripped text other
than exactly "N/A", the heading fallback is never consulted; if that text
is 2 characters or shorter the fragment is rejected even when a heading in
the fragment holds a valid name. -/
theorem C10_heading_fallback_gated (frag : Fragment) (t : Node) (keyword : String)
    (hfind : (findTagClass frag "span" "jcn").orElse
      (fun _ => findTagClass frag "a" "jcn") = some t)
    (hne : pyStripStr t.text ≠ "N/A")
    (hshort : (pyStripStr t.text).length ≤ 2) :
    resolveName frag = pyStripStr t.text ∧ processFragment keyword frag = none := by
  have hname : resolveName frag = pyStripStr t.text := by
    unfold resolveName
    simp only [hfind]
    rw [if_neg hne]
  refine ⟨hname, ?_⟩
  unfold processFragment
  rw [hname, if_neg]
  intro hcon
  exact absurd hcon.2 (Nat.not_lt.mpr hshort)

/-- Witness for C10: a fragment whose `span.jcn` strips to "ab" while its
`h2` holds a valid name is rejected, with the name resolved to "ab". -/
theorem C10_heading_fallback_gated_witness :
    resolveName fragShortName = pyStripStr nodeShortName.text ∧
      processFragment "gym" fragShortName = none :=
  C10_heading_fallback_gated fragShortName nodeShortName "gym"
    (by decide) (by decide) (by decide)

end Justdial
